import Mathlib

/-!
Verification of the account-dashboard normalization and valuation core
(`src/main.py`).

The Python source is shallowly embedded:

* Python floats become `ℚ` (exact arithmetic; the claims under scrutiny are
  about control flow and summation structure, not rounding).
* Kraken balance entries are either a plain amount string (`Balance`) or a
  dict with a `"balance"` field (`BalanceEx`); both end up going through
  `float(amount_str)`, which may fail.  We embed an entry as the *parse
  result* of that amount: `Option ℚ`, `none` meaning the string failed to
  parse (`TypeError`/`ValueError` path, line 201-204 of the source).
* The public-market price lookup (`market.get_ticker` plus the extraction of
  `ticker[first_key]["c"][0]`) is embedded as an oracle
  `String → Option ℚ`, keyed by the pair string `f"{underlying}{base_alt}"`;
  `none` collapses all three failure modes of the source (exception raised,
  empty ticker, malformed ticker shape), each of which makes the loop `continue`.
* The balance fetch itself (`get_account_balance`/`get_balance`/`get_balances`,
  lines 160-178) either yields a dict of balances or fails; we embed its
  outcome as `Option (List (String × Option ℚ))`, `none` meaning any of the
  failure paths that return `0.0` before classification starts.
* Raising an exception is embedded as `Except Unit`; catching it is a `match`.
-/

/-- One uniform broker snapshot, as built by the adapter functions
(`get_alpaca_snapshot`, `get_kraken_snapshot`, `get_oanda_snapshot`).
The optional `earn_wallet_value` mirrors the optional dict key of the
Kraken snapshot (absent ↦ `none`). -/
structure AccountSnapshot where
  name : String
  currency : String
  account_value : ℚ
  available_funds : ℚ
  earn_wallet_value : Option ℚ := none
deriving Repr, DecidableEq

/-- One sheet row `[label, value, timestamp]` (columns A, B, C). -/
structure Row where
  label : String
  value : ℚ
  updated_at : String
deriving Repr, DecidableEq

/-- The single bounded-range overwrite handed to the external writer
(`ws.update(range_name=..., values=...)`). -/
structure WriteCall where
  range_name : String
  values : List Row
deriving Repr, DecidableEq

/-- `_kraken_base_alt_name`: map Kraken internal fiat codes to their alt
human codes; unknown codes pass through unchanged. -/
def kraken_base_alt_name (base_asset : String) : String :=
  if base_asset = "ZUSD" then "USD"
  else if base_asset = "ZEUR" then "EUR"
  else if base_asset = "ZGBP" then "GBP"
  else if base_asset = "ZCAD" then "CAD"
  else if base_asset = "ZAUD" then "AUD"
  else if base_asset = "ZJPY" then "JPY"
  else if base_asset = "ZCHF" then "CHF"
  else base_asset

/-- The Earn/staking wallet suffixes included by
`get_kraken_earn_wallet_value` (line 181). -/
def earn_suffixes : List String := [".B", ".S", ".M"]

/-- Python's `str.endswith`, as a kernel-computable function on the
character data of the strings. -/
def pyEndsWith (s suffix : String) : Bool :=
  suffix.data.isSuffixOf s.data

/-- Classification of one raw balance entry (the body of the loop at
lines 184-209): skip `.F` (Auto Earn), skip codes without a recognized
Earn suffix, skip unparsable amounts, skip non-positive amounts.
(The `isinstance(asset, str)` guards are vacuous here because the
embedding types asset codes as `String`.) -/
def classifyEntry (entry : String × Option ℚ) : Option (String × ℚ) :=
  if pyEndsWith entry.1 ".F" then none
  else if earn_suffixes.any (fun sfx => pyEndsWith entry.1 sfx) then
    match entry.2 with
    | none => none
    | some amount => if amount ≤ 0 then none else some (entry.1, amount)
  else none

/-- `earn_balances`: the classified balances kept by the loop at
lines 184-209, in iteration order. -/
def classifyEarnBalances (balances : List (String × Option ℚ)) :
    List (String × ℚ) :=
  balances.filterMap classifyEntry

/-- Characters of a string up to (excluding) the first `'.'`. -/
def takeUntilDot : List Char → List Char
  | [] => []
  | c :: rest => if c = '.' then [] else c :: takeUntilDot rest

/-- `asset_with_suffix.split(".", 1)[0]`: everything before the first
`'.'` (the whole string when there is no dot) — the underlying asset
code. -/
def stripSuffix (asset : String) : String :=
  ⟨takeUntilDot asset.data⟩

/-- Association-list lookup, the embedding of `underlying in price_cache` /
`price_cache[underlying]`. -/
def alookup (cache : List (String × ℚ)) (key : String) : Option ℚ :=
  match cache with
  | [] => none
  | (k, v) :: rest => if k = key then some v else alookup rest key

/-- The mutable state threaded through the conversion loop of
`get_kraken_earn_wallet_value` (lines 218-267): the running total, the
per-call `price_cache`, and—purely for stating the claims about fetch
counts—the ordered log of underlyings for which `market.get_ticker`
was invoked. -/
structure ConvState where
  total : ℚ
  price_cache : List (String × ℚ)
  fetchLog : List String
deriving Repr, DecidableEq

/-- One iteration of the conversion loop (lines 221-267): fast path when
the underlying is the base asset or its alt name; otherwise consult the
cache; on a miss, fetch the price (every attempt is logged).  A failed
fetch (`none`) skips the asset and caches nothing; a successful fetch is
cached and contributes `amount * price`. -/
def convStep (oracle : String → Option ℚ) (base_asset base_alt : String)
    (st : ConvState) (entry : String × ℚ) : ConvState :=
  if stripSuffix entry.1 = base_asset ∨ stripSuffix entry.1 = base_alt then
    { st with total := st.total + entry.2 }
  else
    match alookup st.price_cache (stripSuffix entry.1) with
    | some price => { st with total := st.total + entry.2 * price }
    | none =>
      match oracle (stripSuffix entry.1 ++ base_alt) with
      | none => { st with fetchLog := st.fetchLog ++ [stripSuffix entry.1] }
      | some price =>
        { total := st.total + entry.2 * price
          price_cache := st.price_cache ++ [(stripSuffix entry.1, price)]
          fetchLog := st.fetchLog ++ [stripSuffix entry.1] }

/-- The whole conversion loop over the classified balances, started from
`total_value = 0.0` and an empty `price_cache`. -/
def earn_conversion_loop (oracle : String → Option ℚ) (base_asset : String)
    (earn_balances : List (String × ℚ)) : ConvState :=
  earn_balances.foldl
    (convStep oracle base_asset (kraken_base_alt_name base_asset))
    ⟨0, [], []⟩

/-- `get_kraken_earn_wallet_value`: `none` for the balance-fetch failure
paths (each returns `0.0` at lines 175/178); otherwise classify, return
`0.0` on an empty Earn wallet (line 211-212), else run the conversion
loop and return its total. -/
def get_kraken_earn_wallet_value (oracle : String → Option ℚ)
    (base_asset : String)
    (balancesResult : Option (List (String × Option ℚ))) : ℚ :=
  match balancesResult with
  | none => 0
  | some balances =>
    let earn_balances := classifyEarnBalances balances
    if earn_balances = [] then 0
    else (earn_conversion_loop oracle base_asset earn_balances).total

/-- The contribution of one classified asset to the total, under a fixed
price oracle: the amount itself on the fast path, `amount * price` when
the pair's price is available, and `0` when the lookup fails (the asset
is skipped). -/
def assetContribution (oracle : String → Option ℚ)
    (base_asset base_alt : String) (entry : String × ℚ) : ℚ :=
  if stripSuffix entry.1 = base_asset ∨ stripSuffix entry.1 = base_alt then
    entry.2
  else
    match oracle (stripSuffix entry.1 ++ base_alt) with
    | some price => entry.2 * price
    | none => 0

/-- `get_kraken_snapshot`, from the point where the remote data is in
hand: `tb_eb`/`tb_mf` embed `tb.get("eb", ...)` / `tb.get("mf", ...)`
presence, and the Earn value is computed by
`get_kraken_earn_wallet_value`.  The Earn value is attached only when
strictly positive (lines 310-312). -/
def get_kraken_snapshot (oracle : String → Option ℚ) (base_asset : String)
    (tb_eb tb_mf : Option ℚ)
    (balancesResult : Option (List (String × Option ℚ))) : AccountSnapshot :=
  let equivalent_balance := tb_eb.getD 0
  let free_margin := tb_mf.getD equivalent_balance
  let earn_wallet_value := get_kraken_earn_wallet_value oracle base_asset balancesResult
  { name := "Kraken"
    currency := base_asset
    account_value := equivalent_balance
    available_funds := free_margin
    earn_wallet_value := if earn_wallet_value > 0 then some earn_wallet_value else none }

/-- Label of the account-value row (`f"{name}: Account Value ({currency})"`). -/
def accountValueRow (ts : String) (s : AccountSnapshot) : Row :=
  ⟨s.name ++ ": Account Value (" ++ s.currency ++ ")", s.account_value, ts⟩

/-- Label of the available-funds row. -/
def availableFundsRow (ts : String) (s : AccountSnapshot) : Row :=
  ⟨s.name ++ ": Available Funds (" ++ s.currency ++ ")", s.available_funds, ts⟩

/-- Label of the optional Earn-wallet row. -/
def earnWalletRow (ts : String) (s : AccountSnapshot) (v : ℚ) : Row :=
  ⟨s.name ++ ": Earn Wallet Value (" ++ s.currency ++ ")", v, ts⟩

/-- The rows appended for one present snapshot (`build_rows` loop body,
lines 364-379): account value, available funds, then—only when the
`earn_wallet_value` key exists—the Earn-wallet row. -/
def snapRows (ts : String) (s : AccountSnapshot) : List Row :=
  [accountValueRow ts s, availableFundsRow ts s] ++
    (match s.earn_wallet_value with
     | some v => [earnWalletRow ts s v]
     | none => [])

/-- `build_rows`: fold over the snapshot list, skipping absent snapshots
and appending each present snapshot's rows in input order. -/
def build_rows (snapshots : List (Option AccountSnapshot)) (ts : String) :
    List Row :=
  snapshots.foldl
    (fun rows snap =>
      match snap with
      | none => rows
      | some s => rows ++ snapRows ts s)
    []

/-- `update_sheet_once` from the point where the snapshots are in hand:
build the rows; if none, skip the write (`return`, line 399-401);
otherwise issue exactly one write to
`f"A{start_row}:C{end_row}"` with `start_row = 5` and
`end_row = start_row + len(rows) - 1`. -/
def update_sheet_once (snapshots : List (Option AccountSnapshot))
    (ts : String) : Option WriteCall :=
  let rows := build_rows snapshots ts
  if rows = [] then none
  else
    some ⟨(("A" ++ toString 5) ++ ":C") ++ toString (5 + rows.length - 1), rows⟩

/-- Outcome of invoking one broker adapter: `notConfigured` embeds the
`return None` on missing credentials, `ok` a produced snapshot, and
`error` an exception raised by the remote call (e.g.
`user.get_trade_balance` failing inside `get_kraken_snapshot`, which has
no surrounding `try`). -/
inductive AdapterResult where
  | notConfigured
  | ok (s : AccountSnapshot)
  | error
deriving Repr, DecidableEq

/-- Evaluate one adapter call as the Python expression does: `None`,
a snapshot, or a raised exception. -/
def snapOf : AdapterResult → Except Unit (Option AccountSnapshot)
  | .notConfigured => .ok none
  | .ok s => .ok (some s)
  | .error => .error ()

/-- Evaluation of the list literal
`[get_alpaca_snapshot(), get_kraken_snapshot(), get_oanda_snapshot()]`
(lines 391-395): elements are evaluated left to right and the first
raised exception propagates immediately. -/
def gather_snapshots : List AdapterResult → Except Unit (List (Option AccountSnapshot))
  | [] => .ok []
  | a :: rest =>
    match snapOf a with
    | .error e => .error e
    | .ok s =>
      match gather_snapshots rest with
      | .error e => .error e
      | .ok ss => .ok (s :: ss)

/-- One full `update_sheet_once` cycle over explicit adapter outcomes:
an adapter exception propagates out of the function (there is no
per-adapter `try` in the source); otherwise the rows are built and at
most one write is issued. -/
def update_sheet_once_run (adapters : List AdapterResult) (ts : String) :
    Except Unit (Option WriteCall) :=
  match gather_snapshots adapters with
  | .error e => .error e
  | .ok snaps => .ok (update_sheet_once snaps ts)

/-- One scheduled-loop iteration of `main` (lines 438-443): the body
calls `update_sheet_once` under `try ... except Exception`, so a failed
cycle is logged and yields no write, and the loop continues. -/
def main_cycle (adapters : List AdapterResult) (ts : String) : Option WriteCall :=
  match update_sheet_once_run adapters ts with
  | .error _ => none
  | .ok w => w

/-- The scheduled loop of `main`: every scheduled cycle is attempted,
each with its own adapter outcomes and timestamp. -/
def main_loop (cycles : List (List AdapterResult × String)) :
    List (Option WriteCall) :=
  cycles.map (fun c => main_cycle c.1 c.2)

/-- Number of present snapshots in a snapshot list. -/
def presentCount (snapshots : List (Option AccountSnapshot)) : ℕ :=
  (snapshots.filterMap id).length

/-- Number of present snapshots whose `earn_wallet_value` key exists. -/
def presentWithSupCount (snapshots : List (Option AccountSnapshot)) : ℕ :=
  ((snapshots.filterMap id).filter
    (fun s => s.earn_wallet_value.isSome)).length

/-- Number of present snapshots carrying a strictly positive
`earn_wallet_value`. -/
def presentWithPositiveSupCount (snapshots : List (Option AccountSnapshot)) : ℕ :=
  ((snapshots.filterMap id).filter
    (fun s =>
      match s.earn_wallet_value with
      | some v => decide (0 < v)
      | none => false)).length

example :
    get_kraken_earn_wallet_value
      (fun pair => if pair = "DOTUSD" then some 5
        else if pair = "ETHUSD" then some 2000 else none)
      "ZUSD"
      (some [("DOT.B", some 10), ("XBT.F", some 1), ("ETH.S", some 2)])
      = 4050 := by
  rw [show get_kraken_earn_wallet_value
      (fun pair => if pair = "DOTUSD" then some 5
        else if pair = "ETHUSD" then some 2000 else none)
      "ZUSD"
      (some [("DOT.B", some 10), ("XBT.F", some 1), ("ETH.S", some 2)])
      = ((0 : ℚ) + 10 * 5 + 2 * 2000) from rfl]
  norm_num

example :
    (build_rows [some ⟨"Alpaca", "USD", 1000, 800, none⟩] "T").length = 2 := by
  rfl

/-- The price cache only ever holds prices the oracle actually returned:
the agreement invariant threaded through the conversion loop. -/
def cacheAgrees (oracle : String → Option ℚ) (base_alt : String)
    (cache : List (String × ℚ)) : Prop :=
  ∀ u p, (u, p) ∈ cache → oracle (u ++ base_alt) = some p

lemma alookup_mem {cache : List (String × ℚ)} {k : String} {v : ℚ}
    (h : alookup cache k = some v) : (k, v) ∈ cache := by
  induction cache with
  | nil => simp [alookup] at h
  | cons p rest ih =>
    obtain ⟨k1, v1⟩ := p
    by_cases hk : k1 = k
    · subst hk
      simp [alookup] at h
      simp [h]
    · simp [alookup, hk] at h
      exact List.mem_cons_of_mem _ (ih h)

lemma alookup_append_of_some {cache : List (String × ℚ)} {k : String} {v : ℚ}
    (l : List (String × ℚ)) (h : alookup cache k = some v) :
    alookup (cache ++ l) k = some v := by
  induction cache with
  | nil => simp [alookup] at h
  | cons p rest ih =>
    obtain ⟨k1, v1⟩ := p
    by_cases hk : k1 = k
    · subst hk
      simp [alookup] at h ⊢
      exact h
    · simp [alookup, hk] at h ⊢
      exact ih h

lemma alookup_append_self {cache : List (String × ℚ)} {k : String}
    (v : ℚ) (h : alookup cache k = none) :
    alookup (cache ++ [(k, v)]) k = some v := by
  induction cache with
  | nil => simp [alookup]
  | cons p rest ih =>
    obtain ⟨k1, v1⟩ := p
    by_cases hk : k1 = k
    · subst hk
      simp [alookup] at h
    · simp [alookup, hk] at h ⊢
      exact ih h

lemma convStep_total_eq (oracle : String → Option ℚ)
    (base_asset base_alt : String) (st : ConvState) (entry : String × ℚ)
    (hc : cacheAgrees oracle base_alt st.price_cache) :
    (convStep oracle base_asset base_alt st entry).total
        = st.total + assetContribution oracle base_asset base_alt entry ∧
      cacheAgrees oracle base_alt
        (convStep oracle base_asset base_alt st entry).price_cache := by
  by_cases hfast :
      stripSuffix entry.1 = base_asset ∨ stripSuffix entry.1 = base_alt
  · constructor
    · simp [convStep, assetContribution, hfast]
    · simpa [convStep, hfast] using hc
  · cases hcache : alookup st.price_cache (stripSuffix entry.1) with
    | some price =>
      have hor := hc _ _ (alookup_mem hcache)
      constructor
      · simp [convStep, assetContribution, hfast, hcache, hor]
      · simpa [convStep, hfast, hcache] using hc
    | none =>
      cases horacle : oracle (stripSuffix entry.1 ++ base_alt) with
      | none =>
        constructor
        · simp [convStep, assetContribution, hfast, hcache, horacle]
        · simpa [convStep, hfast, hcache, horacle] using hc
      | some price =>
        constructor
        · simp [convStep, assetContribution, hfast, hcache, horacle]
        · intro u p hmem
          simp [convStep, hfast, hcache, horacle] at hmem
          rcases hmem with hmem | ⟨hu, hp⟩
          · exact hc u p hmem
          · subst hu; subst hp
            exact horacle

lemma earn_loop_total_general (oracle : String → Option ℚ)
    (base_asset base_alt : String) (l : List (String × ℚ)) :
    ∀ st : ConvState, cacheAgrees oracle base_alt st.price_cache →
      (l.foldl (convStep oracle base_asset base_alt) st).total
        = st.total
            + (l.map (assetContribution oracle base_asset base_alt)).sum := by
  induction l with
  | nil => intro st _; simp
  | cons e rest ih =>
    intro st hc
    obtain ⟨h1, h2⟩ := convStep_total_eq oracle base_asset base_alt st e hc
    simp only [List.foldl_cons, List.map_cons, List.sum_cons]
    rw [ih _ h2, h1]
    ring

lemma classify_skips_auto_earn (l1 l2 : List (String × Option ℚ))
    (a : String) (e : Option ℚ) (h : pyEndsWith a ".F" = true) :
    classifyEarnBalances (l1 ++ (a, e) :: l2)
      = classifyEarnBalances (l1 ++ l2) := by
  unfold classifyEarnBalances
  rw [List.filterMap_append, List.filterMap_append, List.filterMap_cons]
  have hnone : classifyEntry (a, e) = none := by
    simp [classifyEntry, h]
  rw [hnone]

/-- C1: for every balances input to the Earn-wallet valuation, any asset
whose code ends with the auto-earn suffix `.F` contributes exactly 0 to
the returned total, regardless of its amount: inserting such an entry
anywhere in the balances leaves the valuation unchanged. -/
theorem C1_auto_earn_suffix_contributes_zero
    (l1 l2 : List (String × Option ℚ)) (a : String) (e : Option ℚ)
    (h : pyEndsWith a ".F" = true)
    (oracle : String → Option ℚ) (base_asset : String) :
    get_kraken_earn_wallet_value oracle base_asset (some (l1 ++ (a, e) :: l2))
      = get_kraken_earn_wallet_value oracle base_asset (some (l1 ++ l2)) := by
  simp only [get_kraken_earn_wallet_value, classify_skips_auto_earn l1 l2 a e h]

/-- Witness for C1 at a concrete input: adding `("XBT.F", 99)` to a
one-entry Earn wallet does not change its value. -/
theorem C1_witness :
    pyEndsWith "XBT.F" ".F" = true ∧
      get_kraken_earn_wallet_value (fun _ => some 5) "ZUSD"
          (some ([("DOT.B", some 10)] ++ ("XBT.F", some 99) :: []))
        = get_kraken_earn_wallet_value (fun _ => some 5) "ZUSD"
            (some ([("DOT.B", some 10)] ++ [])) :=
  ⟨rfl, C1_auto_earn_suffix_contributes_zero [("DOT.B", some 10)] []
    "XBT.F" (some 99) rfl (fun _ => some 5) "ZUSD"⟩

/-- C2: the Earn-wallet valuation is a total function of its inputs (no
exception propagates: every balance-fetch failure, price-lookup failure
or malformed ticker is a `none` in the embedding), and the returned
total is the sum over exactly the classified assets that are fast-path
or successfully priced — a failing asset contributes `0` and the loop
continues. -/
theorem C2_earn_valuation_absorbs_errors :
    (∀ (oracle : String → Option ℚ) (base_asset : String),
      get_kraken_earn_wallet_value oracle base_asset none = 0) ∧
    (∀ (oracle : String → Option ℚ) (base_asset : String)
        (balances : List (String × Option ℚ)),
      get_kraken_earn_wallet_value oracle base_asset (some balances)
        = ((classifyEarnBalances balances).map
            (assetContribution oracle base_asset
              (kraken_base_alt_name base_asset))).sum) := by
  refine ⟨fun _ _ => rfl, fun oracle base_asset balances => ?_⟩
  simp only [get_kraken_earn_wallet_value]
  by_cases h : classifyEarnBalances balances = []
  · simp [h]
  · simp only [if_neg h]
    unfold earn_conversion_loop
    rw [earn_loop_total_general oracle base_asset _ _ _
      (fun u p hp => absurd hp (List.not_mem_nil _))]
    simp

lemma earn_loop_fastpath_general (oracle : String → Option ℚ)
    (base_asset base_alt : String) (l : List (String × ℚ))
    (h : ∀ p ∈ l, stripSuffix p.1 = base_asset ∨ stripSuffix p.1 = base_alt) :
    ∀ st : ConvState,
      l.foldl (convStep oracle base_asset base_alt) st
        = { st with total := st.total + (l.map Prod.snd).sum } := by
  induction l with
  | nil => intro st; simp
  | cons e rest ih =>
    intro st
    have he := h e (List.mem_cons_self e rest)
    simp only [List.foldl_cons]
    rw [show convStep oracle base_asset base_alt st e
        = { st with total := st.total + e.2 } from by simp [convStep, he]]
    rw [ih (fun p hp => h p (List.mem_cons_of_mem e hp))]
    simp [add_assoc]

/-- C4: when every classified underlying equals the base asset or its
normalized alias, the conversion returns exactly the sum of the
amounts, the fetch log stays empty (zero price fetches) and the price
cache is left untouched. -/
theorem C4_fastpath_exact_sum (oracle : String → Option ℚ)
    (base_asset : String) (classified : List (String × ℚ))
    (h : ∀ p ∈ classified,
        stripSuffix p.1 = base_asset ∨
          stripSuffix p.1 = kraken_base_alt_name base_asset) :
    (earn_conversion_loop oracle base_asset classified).total
        = (classified.map Prod.snd).sum ∧
      (earn_conversion_loop oracle base_asset classified).fetchLog = [] ∧
      (earn_conversion_loop oracle base_asset classified).price_cache = [] := by
  unfold earn_conversion_loop
  rw [earn_loop_fastpath_general oracle base_asset
    (kraken_base_alt_name base_asset) classified h]
  simp

/-- Witness for C4 at a concrete input: a wallet holding only
base-asset and alias-denominated Earn balances. -/
theorem C4_witness :
    (∀ p ∈ [("USD.B", (3 : ℚ)), ("ZUSD.S", 4)],
        stripSuffix p.1 = "ZUSD" ∨
          stripSuffix p.1 = kraken_base_alt_name "ZUSD") ∧
      (earn_conversion_loop (fun _ => none) "ZUSD"
            [("USD.B", 3), ("ZUSD.S", 4)]).total
          = ([("USD.B", (3 : ℚ)), ("ZUSD.S", 4)].map Prod.snd).sum ∧
      (earn_conversion_loop (fun _ => none) "ZUSD"
          [("USD.B", 3), ("ZUSD.S", 4)]).fetchLog = [] ∧
      (earn_conversion_loop (fun _ => none) "ZUSD"
          [("USD.B", 3), ("ZUSD.S", 4)]).price_cache = [] :=
  ⟨by decide,
    C4_fastpath_exact_sum (fun _ => none) "ZUSD"
      [("USD.B", 3), ("ZUSD.S", 4)] (by decide)⟩

lemma convStep_fetch_invariant (oracle : String → Option ℚ)
    (base_asset base_alt : String)
    (hOracle : ∀ pair, (oracle pair).isSome)
    (st : ConvState) (entry : String × ℚ)
    (h1 : st.fetchLog.Nodup)
    (h2 : ∀ u ∈ st.fetchLog, (alookup st.price_cache u).isSome) :
    (convStep oracle base_asset base_alt st entry).fetchLog.Nodup ∧
      ∀ u ∈ (convStep oracle base_asset base_alt st entry).fetchLog,
        (alookup (convStep oracle base_asset base_alt st entry).price_cache
          u).isSome := by
  by_cases hfast :
      stripSuffix entry.1 = base_asset ∨ stripSuffix entry.1 = base_alt
  · constructor
    · simpa [convStep, hfast] using h1
    · simpa [convStep, hfast] using h2
  · cases hcache : alookup st.price_cache (stripSuffix entry.1) with
    | some price =>
      constructor
      · simpa [convStep, hfast, hcache] using h1
      · simpa [convStep, hfast, hcache] using h2
    | none =>
      cases horacle : oracle (stripSuffix entry.1 ++ base_alt) with
      | none =>
        exfalso
        have := hOracle (stripSuffix entry.1 ++ base_alt)
        rw [horacle] at this
        simp at this
      | some price =>
        have hnotin : stripSuffix entry.1 ∉ st.fetchLog := by
          intro hin
          have := h2 _ hin
          rw [hcache] at this
          simp at this
        constructor
        · simp only [convStep, hfast, hcache, horacle]
          simp [List.nodup_append, h1, hnotin]
        · intro u hu
          simp [convStep, hfast, hcache, horacle] at hu ⊢
          rcases hu with hu | hu
          · obtain ⟨v, hv⟩ := Option.isSome_iff_exists.mp (h2 u hu)
            rw [alookup_append_of_some _ hv]
            rfl
          · subst hu
            rw [alookup_append_self price hcache]
            rfl

lemma earn_loop_nodup_general (oracle : String → Option ℚ)
    (base_asset base_alt : String)
    (hOracle : ∀ pair, (oracle pair).isSome) (l : List (String × ℚ)) :
    ∀ st : ConvState, st.fetchLog.Nodup →
      (∀ u ∈ st.fetchLog, (alookup st.price_cache u).isSome) →
      (l.foldl (convStep oracle base_asset base_alt) st).fetchLog.Nodup := by
  induction l with
  | nil => intro st h1 _; exact h1
  | cons e rest ih =>
    intro st h1 h2
    obtain ⟨h1s, h2s⟩ :=
      convStep_fetch_invariant oracle base_asset base_alt hOracle st e h1 h2
    simpa using ih _ h1s h2s

lemma earn_loop_keys_from_underlyings (oracle : String → Option ℚ)
    (base_asset base_alt : String) (l : List (String × ℚ)) :
    ∀ (st : ConvState) (u : String),
      ((∃ pr, (u, pr) ∈
          (l.foldl (convStep oracle base_asset base_alt) st).price_cache) →
        (∃ pr, (u, pr) ∈ st.price_cache) ∨ ∃ p ∈ l, stripSuffix p.1 = u) ∧
      (u ∈ (l.foldl (convStep oracle base_asset base_alt) st).fetchLog →
        u ∈ st.fetchLog ∨ ∃ p ∈ l, stripSuffix p.1 = u) := by
  induction l with
  | nil =>
    intro st u
    exact ⟨fun h => Or.inl h, fun h => Or.inl h⟩
  | cons e rest ih =>
    intro st u
    constructor
    · intro hmem
      rcases (ih (convStep oracle base_asset base_alt st e) u).1 hmem with
        hmem | ⟨p, hp, hup⟩
      · obtain ⟨pr, hpr⟩ := hmem
        by_cases hfast :
            stripSuffix e.1 = base_asset ∨ stripSuffix e.1 = base_alt
        · left; exact ⟨pr, by simpa [convStep, hfast] using hpr⟩
        · cases hcache : alookup st.price_cache (stripSuffix e.1) with
          | some price =>
            left; exact ⟨pr, by simpa [convStep, hfast, hcache] using hpr⟩
          | none =>
            cases horacle : oracle (stripSuffix e.1 ++ base_alt) with
            | none =>
              left; exact ⟨pr, by simpa [convStep, hfast, hcache, horacle]
                using hpr⟩
            | some price =>
              have hpr2 : (u, pr) ∈
                  st.price_cache ++ [(stripSuffix e.1, price)] := by
                simpa [convStep, hfast, hcache, horacle] using hpr
              rcases List.mem_append.mp hpr2 with hh | hh
              · left; exact ⟨pr, hh⟩
              · right
                simp only [List.mem_singleton, Prod.mk.injEq] at hh
                exact ⟨e, List.mem_cons_self e rest, hh.1.symm⟩
      · right; exact ⟨p, List.mem_cons_of_mem e hp, hup⟩
    · intro hmem
      rcases (ih (convStep oracle base_asset base_alt st e) u).2 hmem with
        hmem | ⟨p, hp, hup⟩
      · by_cases hfast :
            stripSuffix e.1 = base_asset ∨ stripSuffix e.1 = base_alt
        · left; simpa [convStep, hfast] using hmem
        · cases hcache : alookup st.price_cache (stripSuffix e.1) with
          | some price =>
            left; simpa [convStep, hfast, hcache] using hmem
          | none =>
            cases horacle : oracle (stripSuffix e.1 ++ base_alt) with
            | none =>
              have hmem2 : u ∈ st.fetchLog ++ [stripSuffix e.1] := by
                simpa [convStep, hfast, hcache, horacle] using hmem
              rcases List.mem_append.mp hmem2 with hh | hh
              · left; exact hh
              · right
                simp only [List.mem_singleton] at hh
                exact ⟨e, List.mem_cons_self e rest, hh.symm⟩
            | some price =>
              have hmem2 : u ∈ st.fetchLog ++ [stripSuffix e.1] := by
                simpa [convStep, hfast, hcache, horacle] using hmem
              rcases List.mem_append.mp hmem2 with hh | hh
              · left; exact hh
              · right
                simp only [List.mem_singleton] at hh
                exact ⟨e, List.mem_cons_self e rest, hh.symm⟩
      · right; exact ⟨p, List.mem_cons_of_mem e hp, hup⟩

/-- C5 (counterexample to the claim as stated): when the price fetch
for `DOT` fails, nothing is cached, so a second balance with the same
underlying (`DOT.B` and `DOT.S`) triggers a second fetch for the same
underlying within one valuation call. -/
theorem C5_counterexample_failed_fetch_retried :
    ((earn_conversion_loop (fun _ => none) "ZUSD"
        [("DOT.B", 1), ("DOT.S", 2)]).fetchLog).count "DOT" = 2 := by
  rfl

/-- C5 (amended): within one valuation call the cache and fetch log are
keyed by underlying asset only (every cache key and every logged fetch
is the suffix-stripped underlying of some classified balance), and as
long as every attempted fetch succeeds, the call performs at most one
fetch per distinct underlying, even when it appears under multiple
wallet-type suffixes. -/
theorem C5_amended_single_fetch_per_underlying (oracle : String → Option ℚ)
    (base_asset : String) (classified : List (String × ℚ))
    (hOracle : ∀ pair, (oracle pair).isSome) :
    (earn_conversion_loop oracle base_asset classified).fetchLog.Nodup ∧
      (∀ u pr, (u, pr) ∈
          (earn_conversion_loop oracle base_asset classified).price_cache →
        ∃ p ∈ classified, stripSuffix p.1 = u) ∧
      (∀ u ∈ (earn_conversion_loop oracle base_asset classified).fetchLog,
        ∃ p ∈ classified, stripSuffix p.1 = u) := by
  unfold earn_conversion_loop
  refine ⟨earn_loop_nodup_general oracle base_asset
      (kraken_base_alt_name base_asset) hOracle classified ⟨0, [], []⟩
      List.nodup_nil (fun u hu => absurd hu (List.not_mem_nil u)),
    fun u pr hmem => ?_, fun u hu => ?_⟩
  · rcases (earn_loop_keys_from_underlyings oracle base_asset
        (kraken_base_alt_name base_asset) classified ⟨0, [], []⟩ u).1
        ⟨pr, hmem⟩ with h | h
    · obtain ⟨pr2, hpr2⟩ := h
      exact absurd hpr2 (List.not_mem_nil _)
    · exact h
  · rcases (earn_loop_keys_from_underlyings oracle base_asset
        (kraken_base_alt_name base_asset) classified ⟨0, [], []⟩ u).2
        hu with h | h
    · exact absurd h (List.not_mem_nil u)
    · exact h

/-- Witness for the amended C5: the same underlying under two suffixes,
with an always-succeeding oracle, is fetched only once. -/
theorem C5_witness :
    (∀ pair : String, ((fun _ => some (5 : ℚ)) pair).isSome) ∧
      (earn_conversion_loop (fun _ => some (5 : ℚ)) "ZUSD"
          [("DOT.B", 1), ("DOT.S", 2)]).fetchLog.Nodup :=
  ⟨fun _ => rfl,
    (C5_amended_single_fetch_per_underlying (fun _ => some 5) "ZUSD"
      [("DOT.B", 1), ("DOT.S", 2)] (fun _ => rfl)).1⟩

lemma build_rows_go (snapshots : List (Option AccountSnapshot)) (ts : String) :
    ∀ acc : List Row,
      snapshots.foldl
          (fun rows snap =>
            match snap with
            | none => rows
            | some s => rows ++ snapRows ts s) acc
        = acc ++ snapshots.foldl
            (fun rows snap =>
              match snap with
              | none => rows
              | some s => rows ++ snapRows ts s) [] := by
  induction snapshots with
  | nil => intro acc; simp
  | cons o rest ih =>
    intro acc
    cases o with
    | none => simpa using ih acc
    | some s =>
      simp only [List.foldl_cons]
      rw [ih (acc ++ snapRows ts s), ih (([] : List Row) ++ snapRows ts s)]
      simp

lemma build_rows_nil (ts : String) : build_rows [] ts = [] := rfl

lemma build_rows_cons_none (rest : List (Option AccountSnapshot))
    (ts : String) : build_rows (none :: rest) ts = build_rows rest ts := rfl

lemma build_rows_cons_some (s : AccountSnapshot)
    (rest : List (Option AccountSnapshot)) (ts : String) :
    build_rows (some s :: rest) ts = snapRows ts s ++ build_rows rest ts := by
  unfold build_rows
  simp only [List.foldl_cons]
  exact build_rows_go rest ts (snapRows ts s)

lemma snapRows_length (ts : String) (s : AccountSnapshot) :
    (snapRows ts s).length
      = 2 + (if s.earn_wallet_value.isSome then 1 else 0) := by
  cases h : s.earn_wallet_value <;> simp [snapRows, h]

lemma build_rows_length (snapshots : List (Option AccountSnapshot))
    (ts : String) :
    (build_rows snapshots ts).length
      = 2 * presentCount snapshots + presentWithSupCount snapshots := by
  induction snapshots with
  | nil => rfl
  | cons o rest ih =>
    cases o with
    | none =>
      rw [build_rows_cons_none]
      simpa [presentCount, presentWithSupCount] using ih
    | some s =>
      rw [build_rows_cons_some]
      rw [List.length_append, snapRows_length, ih]
      simp only [presentCount, presentWithSupCount, List.filterMap_cons]
      cases h : s.earn_wallet_value.isSome <;>
        simp [h, List.filter_cons] <;> omega

/-- C6 (counterexample to the claim as stated): a present snapshot
carrying a zero supplemental value yields 3 rows, while the claimed
formula `2 * present + (present with positive supplemental)` gives 2. -/
theorem C6_counterexample_zero_supplemental_row :
    (build_rows [some ⟨"Kraken", "ZUSD", 1, 1, some 0⟩] "T").length = 3 ∧
      2 * presentCount [some ⟨"Kraken", "ZUSD", 1, 1, some 0⟩]
          + presentWithPositiveSupCount
              [some ⟨"Kraken", "ZUSD", 1, 1, some 0⟩] = 2 := by
  constructor <;> rfl

/-- C6 (amended): the row builder emits exactly
`2 * present + (present with a supplemental value attached)` rows — the
supplemental row fires on presence of the field, not on positivity (the
positivity filter lives in the Kraken adapter); absent snapshots
contribute zero rows and reserve no space, and each present snapshot's
rows appear in input order as account value, then available funds, then
(if present) the supplemental value. -/
theorem C6_amended_row_count_and_order :
    (∀ (snapshots : List (Option AccountSnapshot)) (ts : String),
      (build_rows snapshots ts).length
        = 2 * presentCount snapshots + presentWithSupCount snapshots) ∧
    (∀ ts : String, build_rows [] ts = []) ∧
    (∀ (rest : List (Option AccountSnapshot)) (ts : String),
      build_rows (none :: rest) ts = build_rows rest ts) ∧
    (∀ (s : AccountSnapshot) (rest : List (Option AccountSnapshot))
        (ts : String),
      build_rows (some s :: rest) ts = snapRows ts s ++ build_rows rest ts) ∧
    (∀ (ts : String) (s : AccountSnapshot),
      snapRows ts s
        = [accountValueRow ts s, availableFundsRow ts s]
            ++ (s.earn_wallet_value.map (earnWalletRow ts s)).toList) := by
  refine ⟨build_rows_length, build_rows_nil, build_rows_cons_none,
    build_rows_cons_some, fun ts s => ?_⟩
  cases h : s.earn_wallet_value <;> simp [snapRows, h]

/-- C7: the orchestrator skips the write exactly when the row builder
produced zero rows; otherwise it issues exactly one write whose
rectangle starts at the fixed offset (row 5, columns A through C, a
span of 3 columns) and spans exactly `len(rows)` rows, i.e. the range
`A5:C(4+len(rows))`. -/
theorem C7_single_write_rectangle
    (snapshots : List (Option AccountSnapshot)) (ts : String) :
    update_sheet_once snapshots ts
      = if build_rows snapshots ts = [] then none
        else
          some ⟨"A5:C" ++ toString (4 + (build_rows snapshots ts).length),
            build_rows snapshots ts⟩ := by
  unfold update_sheet_once
  by_cases h : build_rows snapshots ts = []
  · simp [h]
  · simp only [if_neg h]
    have hlen : (build_rows snapshots ts).length ≠ 0 := by
      intro hh
      exact h (List.length_eq_zero.mp hh)
    rw [show 5 + (build_rows snapshots ts).length - 1
        = 4 + (build_rows snapshots ts).length from by omega]
    rfl

lemma gather_snapshots_error (adapters : List AdapterResult)
    (h : AdapterResult.error ∈ adapters) :
    gather_snapshots adapters = .error () := by
  induction adapters with
  | nil => simp at h
  | cons a rest ih =>
    rcases List.mem_cons.mp h with heq | htail
    · subst heq; rfl
    · cases a with
      | notConfigured => simp [gather_snapshots, snapOf, ih htail]
      | ok s => simp [gather_snapshots, snapOf, ih htail]
      | error => rfl

/-- C3 (counterexample to the claim as stated): with two healthy
brokers and one whose remote call raises, the whole cycle raises — no
write is issued for the healthy brokers' rows, because the snapshot
list in `update_sheet_once` is built with no per-adapter exception
handling. -/
theorem C3_counterexample_broker_failure_aborts_cycle :
    update_sheet_once_run
        [AdapterResult.ok ⟨"Alpaca", "USD", 1000, 800, none⟩,
          AdapterResult.error,
          AdapterResult.ok ⟨"OANDA", "USD", 50, 40, none⟩] "T"
        = Except.error () ∧
      ¬ ∃ w : Option WriteCall,
          update_sheet_once_run
              [AdapterResult.ok ⟨"Alpaca", "USD", 1000, 800, none⟩,
                AdapterResult.error,
                AdapterResult.ok ⟨"OANDA", "USD", 50, 40, none⟩] "T"
            = Except.ok w := by
  refine ⟨rfl, ?_⟩
  rintro ⟨w, hw⟩
  rw [show update_sheet_once_run
      [AdapterResult.ok ⟨"Alpaca", "USD", 1000, 800, none⟩,
        AdapterResult.error,
        AdapterResult.ok ⟨"OANDA", "USD", 50, 40, none⟩] "T"
      = Except.error () from rfl] at hw
  exact Except.noConfusion hw

/-- C3 (amended): if any configured broker's remote call fails during a
cycle, the exception propagates and the whole cycle aborts with no
write at all (the other brokers' rows are lost for that cycle); in
scheduled-loop mode the failure is caught at the loop level, so every
scheduled cycle is still attempted, each independently of earlier
failures. -/
theorem C3_amended_cycle_aborts_but_loop_continues
    (adapters : List AdapterResult) (ts : String)
    (h : AdapterResult.error ∈ adapters) :
    update_sheet_once_run adapters ts = Except.error () ∧
      ∀ (cycles : List (List AdapterResult × String)) (i : ℕ),
        (main_loop cycles)[i]?
          = (cycles[i]?).map (fun c => main_cycle c.1 c.2) := by
  constructor
  · unfold update_sheet_once_run
    rw [gather_snapshots_error adapters h]
  · intro cycles i
    simp [main_loop]

/-- Witness for the amended C3: a concrete failing cycle aborts, and the
second scheduled cycle is still attempted. -/
theorem C3_witness :
    AdapterResult.error
        ∈ [AdapterResult.ok ⟨"Alpaca", "USD", 1000, 800, none⟩,
            AdapterResult.error] ∧
      update_sheet_once_run
          [AdapterResult.ok ⟨"Alpaca", "USD", 1000, 800, none⟩,
            AdapterResult.error] "T"
        = Except.error () ∧
      (main_loop
          [([AdapterResult.ok ⟨"Alpaca", "USD", 1000, 800, none⟩,
              AdapterResult.error], "T"),
            ([], "U")])[1]?
        = ((([([AdapterResult.ok ⟨"Alpaca", "USD", 1000, 800, none⟩,
              AdapterResult.error], "T"),
            ([], "U")] : List (List AdapterResult × String))[1]?).map
            (fun c => main_cycle c.1 c.2)) :=
  ⟨List.mem_cons_of_mem _ (List.mem_cons_self _ _),
    (C3_amended_cycle_aborts_but_loop_continues
      [AdapterResult.ok ⟨"Alpaca", "USD", 1000, 800, none⟩,
        AdapterResult.error] "T"
      (List.mem_cons_of_mem _ (List.mem_cons_self _ _))).1,
    (C3_amended_cycle_aborts_but_loop_continues
      [AdapterResult.ok ⟨"Alpaca", "USD", 1000, 800, none⟩,
        AdapterResult.error] "T"
      (List.mem_cons_of_mem _ (List.mem_cons_self _ _))).2
      [([AdapterResult.ok ⟨"Alpaca", "USD", 1000, 800, none⟩,
          AdapterResult.error], "T"),
        ([], "U")] 1⟩

/-- C8: the Kraken adapter attaches the supplemental Earn-wallet value
to its snapshot iff that value is strictly positive; a zero or negative
value leaves the snapshot without the field entirely. -/
theorem C8_supplemental_iff_positive (oracle : String → Option ℚ)
    (base_asset : String) (tb_eb tb_mf : Option ℚ)
    (bal : Option (List (String × Option ℚ))) :
    ((get_kraken_snapshot oracle base_asset tb_eb tb_mf bal).earn_wallet_value
        = some (get_kraken_earn_wallet_value oracle base_asset bal)
      ↔ 0 < get_kraken_earn_wallet_value oracle base_asset bal) ∧
      ((get_kraken_snapshot oracle base_asset tb_eb tb_mf
            bal).earn_wallet_value = none
        ↔ get_kraken_earn_wallet_value oracle base_asset bal ≤ 0) := by
  by_cases h : 0 < get_kraken_earn_wallet_value oracle base_asset bal
  · constructor
    · simp [get_kraken_snapshot, h]
    · simp [get_kraken_snapshot, h, not_le.mpr h]
  · constructor
    · simp [get_kraken_snapshot, h]
    · simp [get_kraken_snapshot, h, not_lt.mp h]

/-- C9: in the Kraken adapter, `available_funds` is the free margin
`mf` when that key is present in the trade-balance response, and
otherwise falls back to the same value as `account_value` (`eb`); in
particular `eb = 500` with no `mf` key gives `available_funds = 500`. -/
theorem C9_available_funds_fallback (oracle : String → Option ℚ)
    (base_asset : String) (tb_eb : Option ℚ) (m : ℚ)
    (bal : Option (List (String × Option ℚ))) :
    (get_kraken_snapshot oracle base_asset tb_eb (some m)
        bal).available_funds = m ∧
      (get_kraken_snapshot oracle base_asset tb_eb none
          bal).available_funds
        = (get_kraken_snapshot oracle base_asset tb_eb none
            bal).account_value ∧
      (get_kraken_snapshot oracle base_asset (some 500) none
          bal).available_funds = 500 := by
  refine ⟨?_, ?_, ?_⟩ <;> simp [get_kraken_snapshot]

/-- C10: the row builder emits a supplemental row for every snapshot
whose supplemental field is present — including a zero or negative
value — while the strict-positivity filter is enforced only in the
Kraken adapter. -/
theorem C10_builder_renders_any_present_supplemental :
    (∀ (s : AccountSnapshot) (ts : String) (v : ℚ),
      s.earn_wallet_value = some v →
        build_rows [some s] ts
          = [accountValueRow ts s, availableFundsRow ts s,
              earnWalletRow ts s v]) ∧
    (∀ (oracle : String → Option ℚ) (base_asset : String)
        (tb_eb tb_mf : Option ℚ)
        (bal : Option (List (String × Option ℚ))),
      get_kraken_earn_wallet_value oracle base_asset bal ≤ 0 →
        (get_kraken_snapshot oracle base_asset tb_eb tb_mf
            bal).earn_wallet_value = none) := by
  constructor
  · intro s ts v h
    rw [build_rows_cons_some, build_rows_nil]
    simp [snapRows, h]
  · intro oracle base_asset tb_eb tb_mf bal h
    simp [get_kraken_snapshot, not_lt.mpr h]

/-- Witness for C10: a snapshot with a zero supplemental value still
gets its supplemental row, and an adapter whose Earn valuation is zero
attaches no field. -/
theorem C10_witness :
    ((⟨"Kraken", "ZUSD", 1, 2, some 0⟩ : AccountSnapshot).earn_wallet_value
        = some 0 ∧
      build_rows [some ⟨"Kraken", "ZUSD", 1, 2, some 0⟩] "T"
        = [accountValueRow "T" ⟨"Kraken", "ZUSD", 1, 2, some 0⟩,
            availableFundsRow "T" ⟨"Kraken", "ZUSD", 1, 2, some 0⟩,
            earnWalletRow "T" ⟨"Kraken", "ZUSD", 1, 2, some 0⟩ 0]) ∧
      (get_kraken_earn_wallet_value (fun _ => none) "ZUSD" none ≤ 0 ∧
        (get_kraken_snapshot (fun _ => none) "ZUSD" none none
            none).earn_wallet_value = none) :=
  ⟨⟨rfl,
    C10_builder_renders_any_present_supplemental.1
      ⟨"Kraken", "ZUSD", 1, 2, some 0⟩ "T" 0 rfl⟩,
    le_refl 0,
    C10_builder_renders_any_present_supplemental.2
      (fun _ => none) "ZUSD" none none none (le_refl 0)⟩
